import Mathlib

/-!
Verification model of the quatplot serial-to-WebSocket broadcaster
(`src/main.go`).  The Go program reads comma-separated quaternion lines
from a serial port, parses them with `parseQuaternion`, stores the most
recent value in `currentQuat`, and fans each record out to all connected
WebSocket clients with `broadcastQuaternion`; `handleWebSocket` registers
a new client and immediately sends it the current snapshot.

Modelling conventions:
* `float64` values are modelled exactly: a finite float is the exact
  rational denoted by its decimal (or hexadecimal) literal; the special
  values `+Inf`, `-Inf` and `NaN` are separate constructors.  Rounding of
  a decimal literal to the nearest binary double is not modelled (the
  claims under verification are stated "up to floating-point
  representation"); overflow of `strconv.ParseFloat` past the largest
  magnitude that still rounds to a finite double is modelled exactly,
  since it turns into a non-nil error that `parseQuaternion` propagates.
* Strings are processed as `List Char`; Go iterates over bytes, but every
  input the program distinguishes is determined by its rune sequence.
* The mutable globals `currentQuat` and `clients` become a `ServerState`
  record threaded through the functions that mutate them; `log.Printf`
  calls become entries appended to a `log` field.
* Whether a WebSocket write to a given client fails is decided by the
  network, not the program; it enters the model as an oracle
  `fails : Nat -> Bool` mapping client ids to the outcome of the next
  write attempt.
-/

set_option autoImplicit false
set_option maxRecDepth 8000

deriving instance DecidableEq for Except

namespace Quatplot

/-- Result of Go's `strconv.ParseFloat`: a finite value (kept as the exact
rational value of the literal), a signed infinity, or NaN. -/
inductive GoFloat where
  | fin (q : ℚ)
  | inf (neg : Bool)
  | nan
  deriving DecidableEq, Repr

/-- The error component of a non-nil `strconv.ParseFloat` error:
`invalid syntax` or `value out of range`. -/
inductive GoParseErr where
  | invalidSyntax
  | outOfRange
  deriving DecidableEq, Repr

/-- The `Quaternion` struct of `src/main.go` (fields `I J K Real`,
JSON-tagged `i j k real`). -/
structure Quaternion where
  i : GoFloat
  j : GoFloat
  k : GoFloat
  real : GoFloat
  deriving DecidableEq, Repr

/-- The zero value of the Go struct `Quaternion`: all four `float64`
fields are `0`.  This is the state of the global `currentQuat` at process
start (`var currentQuat Quaternion`, main.go line 27). -/
def zeroQuat : Quaternion :=
  { i := .fin 0, j := .fin 0, k := .fin 0, real := .fin 0 }

/-- Unicode code points with the `White_Space` property, the set trimmed
by Go's `strings.TrimSpace` (via `unicode.IsSpace`). -/
def goIsSpace (c : Char) : Bool :=
  let n := c.toNat
  (9 ≤ n && n ≤ 13) || n = 32 || n = 0x85 || n = 0xA0 || n = 0x1680 ||
    (0x2000 ≤ n && n ≤ 0x200A) || n = 0x2028 || n = 0x2029 ||
    n = 0x202F || n = 0x205F || n = 0x3000

/-- Go's `strings.TrimSpace`: drop leading and trailing white space of the
whole line (and nothing else). -/
def goTrimSpace (s : List Char) : List Char :=
  ((s.dropWhile goIsSpace).reverse.dropWhile goIsSpace).reverse

/-- Go's `strings.Split(s, ",")`: split on every comma; the empty string
yields one empty field, `n` commas yield `n+1` fields. -/
def splitComma : List Char → List (List Char)
  | [] => [[]]
  | c :: rest =>
    if c = ',' then
      [] :: splitComma rest
    else
      match splitComma rest with
      | [] => [[c]]
      | f :: fs => (c :: f) :: fs

/-- Go's byte-level `lower`: set the 0x20 bit, mapping an upper-case ASCII
letter to lower case (used only for case-insensitive letter checks). -/
def lowerC (c : Char) : Char :=
  Char.ofNat (c.toNat % 128 ||| 0x20)

/-- Case-insensitive (ASCII) equality of two character lists. -/
def ciEq : List Char → List Char → Bool
  | [], [] => true
  | a :: as, b :: bs => lowerC a = lowerC b && ciEq as bs
  | _, _ => false

example : splitComma "0,0,0".data = ["0".data, "0".data, "0".data] := by decide

example : goTrimSpace "  1,2 ".data = "1,2".data := by decide

example : ciEq "InFiNiTy".data "infinity".data = true := by decide

/-- Value of an ASCII decimal digit, if `c` is one. -/
def decDigit (c : Char) : Option ℕ :=
  if 48 ≤ c.toNat && c.toNat ≤ 57 then some (c.toNat - 48) else none

/-- Value of an ASCII hexadecimal digit, if `c` is one (either case). -/
def hexDigit (c : Char) : Option ℕ :=
  match decDigit c with
  | some d => some d
  | none =>
    let l := lowerC c
    if 97 ≤ l.toNat && l.toNat ≤ 102 then some (l.toNat - 87) else none

/-- Go `strconv`'s `special`, restricted to a whole-string match as
`ParseFloat` requires: an optional sign followed by `inf` or `infinity`
(case-insensitive), or the unsigned token `nan` (case-insensitive).
A sign falls through only to the infinity check, so `-NaN` is rejected. -/
def specialFloat (s : List Char) : Option GoFloat :=
  match s with
  | [] => none
  | c :: rest =>
    if c = '+' || c = '-' then
      if ciEq rest "inf".data || ciEq rest "infinity".data then
        some (.inf (c = '-'))
      else none
    else if ciEq s "nan".data then some .nan
    else if ciEq s "inf".data || ciEq s "infinity".data then some (.inf false)
    else none

/-- Accumulator of the mantissa scan of Go's `readFloat`: digit value so
far, number of digits seen after the dot, and the `sawdigits`/`sawdot`
flags. -/
structure MantScan where
  mant : ℕ
  nfrac : ℕ
  sawDigits : Bool
  sawDot : Bool
  deriving Repr

/-- Mantissa loop of Go's `readFloat`: consume digits (of the given base),
at most one dot, and underscores (validated separately by
`underscoreOK`); stop at the first other character or a second dot. -/
def scanMantissa (dig : Char → Option ℕ) (base : ℕ) :
    List Char → MantScan → MantScan × List Char
  | [], st => (st, [])
  | c :: rest, st =>
    if c = '_' then scanMantissa dig base rest st
    else if c = '.' then
      if st.sawDot then (st, c :: rest)
      else scanMantissa dig base rest { st with sawDot := true }
    else
      match dig c with
      | some d =>
        scanMantissa dig base rest
          { st with
            mant := st.mant * base + d
            sawDigits := true
            nfrac := if st.sawDot then st.nfrac + 1 else st.nfrac }
      | none => (st, c :: rest)

/-- Exponent-digit loop of Go's `readFloat`: decimal digits with
underscores allowed between them. -/
def scanExpDigits : List Char → ℕ → ℕ × List Char
  | [], acc => (acc, [])
  | c :: rest, acc =>
    if c = '_' then scanExpDigits rest acc
    else
      match decDigit c with
      | some d => scanExpDigits rest (acc * 10 + d)
      | none => (acc, c :: rest)

/-- Digit part of Go's `readFloat` on the string after sign (and after
the `0x` prefix when `hex`): a mantissa with at least one digit and at
most one dot, then an optional (mandatory when `hex`) exponent `e`/`p`
with optional sign whose first character must be a digit.  The whole
input must be consumed.  Returns `(mant, nfrac, exp)`. -/
def readNumber (hex : Bool) (s : List Char) : Option (ℕ × ℕ × ℤ) :=
  let dig := if hex then hexDigit else decDigit
  let base := if hex then 16 else 10
  let (st, rest) := scanMantissa dig base s ⟨0, 0, false, false⟩
  if !st.sawDigits then none
  else
    match rest with
    | [] => if hex then none else some (st.mant, st.nfrac, 0)
    | c :: rest2 =>
      if lowerC c = (if hex then 'p' else 'e') then
        let (esign, rest3) : ℤ × List Char :=
          match rest2 with
          | '+' :: r => (1, r)
          | '-' :: r => (-1, r)
          | r => (1, r)
        match rest3 with
        | [] => none
        | c0 :: _ =>
          match decDigit c0 with
          | none => none
          | some _ =>
            let (e, rest4) := scanExpDigits rest3 0
            if rest4 = [] then some (st.mant, st.nfrac, esign * (e : ℤ))
            else none
      else none

/-- Digit-run loop of Go `strconv`'s `underscoreOK`: `saw` is `'^'` at
the start of the number, `'0'` after a digit or base prefix, `'_'` after
an underscore, `'!'` after anything else. -/
def underscoreOKCore (hex : Bool) : Char → List Char → Bool
  | saw, [] => saw != '_'
  | saw, c :: rest =>
    if (decDigit c).isSome || (hex && (hexDigit c).isSome) then
      underscoreOKCore hex '0' rest
    else if c = '_' then
      saw == '0' && underscoreOKCore hex '_' rest
    else
      saw != '_' && underscoreOKCore hex '!' rest

/-- Go `strconv`'s `underscoreOK`: underscores may appear only between
digits or between a base prefix and a digit. -/
def underscoreOK (s : List Char) : Bool :=
  let s1 :=
    match s with
    | c :: r => if c = '+' || c = '-' then r else c :: r
    | [] => []
  match s1 with
  | '0' :: b :: r =>
    if lowerC b = 'x' then underscoreOKCore true '0' r
    else if lowerC b = 'b' || lowerC b = 'o' then underscoreOKCore false '0' r
    else underscoreOKCore false '^' ('0' :: b :: r)
  | _ => underscoreOKCore false '^' s1

/-- Smallest magnitude at which a decimal literal no longer rounds to a
finite `float64` (the midpoint between the largest finite double and
`2^1024`; ties round to even, that is, to infinity), at which
`strconv.ParseFloat` reports `value out of range`. -/
def float64OverflowBound : ℕ := 2 ^ 1024 - 2 ^ 970

/-- Exact value `(if neg then -1 else 1) * mant * base ^ e` as a rational,
computed at the integer level (numerator and denominator built with
natural-number arithmetic, then normalized once by `mkRat`). -/
def litValue (neg : Bool) (mant : ℕ) (base : ℕ) (e : ℤ) : ℚ :=
  let n : ℤ := if neg then -(mant : ℤ) else (mant : ℤ)
  match e with
  | .ofNat k => mkRat (n * (base ^ k : ℕ)) 1
  | .negSucc k => mkRat n (base ^ (k + 1))

/-- Whether `mant * base ^ e` reaches `float64OverflowBound`, decided by
cross-multiplying with natural numbers. -/
def litOverflows (mant : ℕ) (base : ℕ) (e : ℤ) : Bool :=
  match e with
  | .ofNat k => float64OverflowBound ≤ mant * base ^ k
  | .negSucc k => float64OverflowBound * base ^ (k + 1) ≤ mant

/-- Model of Go's `strconv.ParseFloat(s, 64)` as used by
`parseQuaternion`.  Finite results keep the exact rational value of the
literal (binary rounding is not modelled; underflow to zero is therefore
kept exact, which no claim distinguishes).  An overflowing literal
yields the non-nil `value out of range` error (Go also returns an
infinity alongside it, which `parseQuaternion` discards). -/
def goParseFloat (s : List Char) : Except GoParseErr GoFloat :=
  match specialFloat s with
  | some v => .ok v
  | none =>
    let (neg, s1) : Bool × List Char :=
      match s with
      | '+' :: r => (false, r)
      | '-' :: r => (true, r)
      | r => (false, r)
    let hex : Bool :=
      match s1 with
      | '0' :: b :: _ => lowerC b = 'x'
      | _ => false
    let body := if hex then s1.drop 2 else s1
    match readNumber hex body with
    | none => .error .invalidSyntax
    | some (mant, nfrac, e) =>
      if !underscoreOK s then .error .invalidSyntax
      else
        let base : ℕ := if hex then 2 else 10
        let expNet : ℤ := if hex then e - 4 * (nfrac : ℤ) else e - (nfrac : ℤ)
        if litOverflows mant base expNet then .error .outOfRange
        else .ok (.fin (litValue neg mant base expNet))

/-- Hexadecimal digit character for `goQuote`'s escapes. -/
def hexDigitChar (n : ℕ) : Char :=
  if n < 10 then Char.ofNat (48 + n) else Char.ofNat (87 + n)

/-- Escaping of one character by Go's `strconv.Quote`, faithful on the
ASCII range (the only range the program's inputs exercise); non-ASCII
runes are passed through unescaped. -/
def goQuoteChar (c : Char) : List Char :=
  if c = '"' then ['\\', '"']
  else if c = '\\' then ['\\', '\\']
  else if 0x20 ≤ c.toNat && c.toNat ≤ 0x7E then [c]
  else if c.toNat = 7 then ['\\', 'a']
  else if c.toNat = 8 then ['\\', 'b']
  else if c.toNat = 12 then ['\\', 'f']
  else if c = '\n' then ['\\', 'n']
  else if c = '\r' then ['\\', 'r']
  else if c = '\t' then ['\\', 't']
  else if c.toNat = 11 then ['\\', 'v']
  else if c.toNat < 0x80 then
    ['\\', 'x', hexDigitChar (c.toNat / 16), hexDigitChar (c.toNat % 16)]
  else [c]

/-- Go's `strconv.Quote` (ASCII-faithful): the string in double quotes
with escapes. -/
def goQuote (s : List Char) : List Char :=
  '"' :: (s.map goQuoteChar).flatten ++ ['"']

/-- Message of the `*strconv.NumError` returned by `ParseFloat`, as
printed by `fmt.Errorf`'s `%v`:
`strconv.ParseFloat: parsing "text": invalid syntax` (or
`value out of range`). -/
def numErrorMsg (s : List Char) (e : GoParseErr) : List Char :=
  "strconv.ParseFloat: parsing ".data ++ goQuote s ++ ": ".data ++
    (match e with
     | .invalidSyntax => "invalid syntax".data
     | .outOfRange => "value out of range".data)

/-- Field-wise body of `parseQuaternion` (main.go lines 104-131) applied
to the comma-split fields: exactly four fields are required, each is fed
to `strconv.ParseFloat(..., 64)` in order, and the first failure is
returned as `fmt.Errorf`'s message; on success the four values fill
`Quaternion{I, J, K, Real}` in order. -/
def parseParts : List (List Char) → Except String Quatplot.Quaternion
  | [a, b, c, d] =>
    match goParseFloat a with
    | .error e => .error ("invalid i value: " ++ String.mk (numErrorMsg a e))
    | .ok vi =>
      match goParseFloat b with
      | .error e => .error ("invalid j value: " ++ String.mk (numErrorMsg b e))
      | .ok vj =>
        match goParseFloat c with
        | .error e => .error ("invalid k value: " ++ String.mk (numErrorMsg c e))
        | .ok vk =>
          match goParseFloat d with
          | .error e => .error ("invalid real value: " ++ String.mk (numErrorMsg d e))
          | .ok vr => .ok { i := vi, j := vj, k := vk, real := vr }
  | parts => .error ("expected 4 values, got " ++ toString parts.length)

/-- The `parseQuaternion` function of main.go: trim white space of the
whole line, split on commas, then `parseParts`. -/
def parseQuaternion (line : String) : Except String Quatplot.Quaternion :=
  parseParts (splitComma (goTrimSpace line.data))

/-- A JSON value as produced by `json.Marshal` on the `Quaternion`
struct: an object with named number fields (numbers kept as exact
rationals, matching the `GoFloat` convention). -/
abbrev QuatJson : Type := List (String × ℚ)

/-- First non-finite field value of the record, if any, with the text
`encoding/json` prints for it in its `unsupported value` error. -/
def firstNonFinite (q : Quaternion) : Option String :=
  let name : GoFloat → Option String := fun v =>
    match v with
    | .fin _ => none
    | .inf false => some "+Inf"
    | .inf true => some "-Inf"
    | .nan => some "NaN"
  match name q.i with
  | some s => some s
  | none =>
    match name q.j with
    | some s => some s
    | none =>
      match name q.k with
      | some s => some s
      | none => name q.real

/-- Model of `json.Marshal` on a `Quaternion` value: fails with
`json.UnsupportedValueError` if any `float64` field is an infinity or
NaN, and otherwise produces the object with the four tagged fields
`i, j, k, real` in struct order. -/
def marshalQuaternion (q : Quaternion) : Except String QuatJson :=
  match q.i, q.j, q.k, q.real with
  | .fin a, .fin b, .fin c, .fin d =>
    .ok [("i", a), ("j", b), ("k", c), ("real", d)]
  | _, _, _, _ =>
    .error ("json: unsupported value: " ++ (firstNonFinite q).getD "")

/-- One connected WebSocket client: its connection identity (the
`*websocket.Conn` map key) and the sequence of message payloads written
to it so far.  A `none` payload is an empty frame (`WriteMessage` with a
nil byte slice, which happens when a marshal error was ignored). -/
structure Client where
  id : ℕ
  inbox : List (Option QuatJson)
  deriving DecidableEq

/-- Events the program reports with `log.Printf`/`log.Println`, in the
order they are emitted. -/
inductive LogEntry where
  | openError
  | opened
  | parseError (msg : String) (line : String)
  | marshalError (msg : String)
  | writeError (id : ℕ)
  | portClosed
  deriving DecidableEq

/-- The write loop of `broadcastQuaternion` (main.go lines 144-151):
attempt delivery of `data` to each client; a client whose write fails is
logged, closed and deleted from the map, the others get the payload
appended. -/
def deliverAll (data : QuatJson) (fails : ℕ → Bool) :
    List Client → List Client × List LogEntry
  | [] => ([], [])
  | c :: rest =>
    let (cs, lg) := deliverAll data fails rest
    if fails c.id then (cs, .writeError c.id :: lg)
    else ({ c with inbox := c.inbox ++ [some data] } :: cs, lg)

/-- The `broadcastQuaternion` function of main.go: serialize the record
once with `json.Marshal`; on a marshal error log and return with the
client set untouched; otherwise attempt one delivery of the serialized
bytes to every currently registered client, deleting those whose write
fails.  `fails` is the environment's verdict on each client's write. -/
def broadcastQuaternion (quat : Quaternion) (fails : ℕ → Bool)
    (clients : List Client) : List Client × List LogEntry :=
  match marshalQuaternion quat with
  | .error e => (clients, [.marshalError e])
  | .ok data => deliverAll data fails clients

/-- The shared mutable state of the process: the latest-value store
`currentQuat`, the subscriber map `clients`, and the emitted log. -/
structure ServerState where
  currentQuat : Quaternion
  clients : List Client
  log : List LogEntry
  deriving DecidableEq

/-- State at process start: `currentQuat` is the zero value of the Go
struct (all fields `0`), no clients, nothing logged. -/
def initialState : ServerState :=
  { currentQuat := zeroQuat, clients := [], log := [] }

/-- Registration part of `handleWebSocket` (main.go lines 162-174) after
a successful upgrade: add the connection to the `clients` map, read the
`currentQuat` snapshot under `quatMutex.RLock`, marshal it (the error is
discarded: `data, _ := json.Marshal(quat)`) and write the result as the
client's first message — an empty frame when marshalling failed. -/
def register (st : ServerState) (cid : ℕ) : ServerState :=
  let firstMsg : Option QuatJson := (marshalQuaternion st.currentQuat).toOption
  { st with clients := st.clients ++ [{ id := cid, inbox := [firstMsg] }] }

/-- Body of the scanner loop of `listenSerialPort` (main.go lines 77-92)
for one input line: parse it; on a parse error log and skip the line; on
success store the record in `currentQuat` (under `quatMutex.Lock`) and
then broadcast that same record. -/
def processLine (fails : ℕ → Bool) (st : ServerState) (line : String) :
    ServerState :=
  match parseQuaternion line with
  | .error e => { st with log := st.log ++ [.parseError e line] }
  | .ok quat =>
    let (cs, lg) := broadcastQuaternion quat fails st.clients
    { currentQuat := quat, clients := cs, log := st.log ++ lg }

/-- All lines delivered by one open serial connection, processed in
order. -/
def processLines (fails : ℕ → Bool) (st : ServerState)
    (lines : List String) : ServerState :=
  lines.foldl (processLine fails) st

/-- One iteration of the reconnect loop of `listenSerialPort`: either
`serial.Open` fails (logged, state otherwise untouched, the loop
continues), or it succeeds and the scanner yields a finite sequence of
lines ending when the stream closes, after which the port is closed and
logged. -/
inductive Attempt where
  | openFail
  | openOk (lines : List String)

/-- Effect of one iteration of the `for` loop of `listenSerialPort` on
the state. -/
def applyAttempt (fails : ℕ → Bool) (st : ServerState) : Attempt → ServerState
  | .openFail => { st with log := st.log ++ [.openError] }
  | .openOk lines =>
    let st1 := { st with log := st.log ++ [.opened] }
    let st2 := processLines fails st1 lines
    { st2 with log := st2.log ++ [.portClosed] }

/-- State after `n` iterations of the unbounded reconnect loop of
`listenSerialPort`, the `k`-th iteration seeing attempt `att k`.  The
function is total in `n`: the loop never terminates, it keeps retrying
after every failed open and every closed stream. -/
def loopState (fails : ℕ → Bool) (st0 : ServerState) (att : ℕ → Attempt) :
    ℕ → ServerState
  | 0 => st0
  | n + 1 => applyAttempt fails (loopState fails st0 att n) (att n)

/-- Whether `needle` is an initial segment of `hay` (used to state that
an error message does or does not mention a piece of text). -/
def leadsList (needle hay : List Char) : Bool :=
  match needle, hay with
  | [], _ => true
  | _ :: _, [] => false
  | a :: as, b :: bs => a == b && leadsList as bs

/-- Whether `needle` occurs contiguously anywhere inside `hay`. -/
def containsSub (needle : List Char) : List Char → Bool
  | [] => leadsList needle []
  | c :: rest => leadsList needle (c :: rest) || containsSub needle rest

/-- Two states agree on everything the claims observe apart from the
log: the latest-value store and the subscriber set. -/
def sameCore (s t : ServerState) : Prop :=
  s.currentQuat = t.currentQuat ∧ s.clients = t.clients

theorem leadsList_self_append (xs zs : List Char) :
    leadsList xs (xs ++ zs) = true := by
  induction xs with
  | nil => rfl
  | cons a as ih => simp [leadsList, ih]

theorem containsSub_of_leadsList (ys hay : List Char)
    (h : leadsList ys hay = true) : containsSub ys hay = true := by
  cases hay with
  | nil => exact h
  | cons c rest => simp [containsSub, h]

theorem containsSub_append_middle (xs ys zs : List Char) :
    containsSub ys (xs ++ ys ++ zs) = true := by
  induction xs with
  | nil =>
    exact containsSub_of_leadsList ys (ys ++ zs) (leadsList_self_append ys zs)
  | cons x xs ih =>
    simp only [List.cons_append, containsSub, Bool.or_eq_true]
    right
    exact ih

theorem deliverAll_eq (data : QuatJson) (fails : ℕ → Bool) (cs : List Client) :
    deliverAll data fails cs =
      ((cs.filter (fun c => !fails c.id)).map
          (fun c => { c with inbox := c.inbox ++ [some data] }),
        (cs.filter (fun c => fails c.id)).map
          (fun c => LogEntry.writeError c.id)) := by
  induction cs with
  | nil => rfl
  | cons c rest ih =>
    simp only [deliverAll, ih, List.filter_cons]
    cases h : fails c.id <;> simp [h]

theorem broadcastQuaternion_ok (quat : Quaternion) (fails : ℕ → Bool)
    (cs : List Client) (data : QuatJson)
    (hm : marshalQuaternion quat = .ok data) :
    broadcastQuaternion quat fails cs = deliverAll data fails cs := by
  unfold broadcastQuaternion
  rw [hm]

theorem broadcastQuaternion_error (quat : Quaternion) (fails : ℕ → Bool)
    (cs : List Client) (e : String)
    (hm : marshalQuaternion quat = .error e) :
    broadcastQuaternion quat fails cs = (cs, [.marshalError e]) := by
  unfold broadcastQuaternion
  rw [hm]

theorem processLine_error (fails : ℕ → Bool) (st : ServerState)
    (line : String) (e : String) (hp : parseQuaternion line = .error e) :
    processLine fails st line = { st with log := st.log ++ [.parseError e line] } := by
  unfold processLine
  rw [hp]

theorem processLine_ok (fails : ℕ → Bool) (st : ServerState)
    (line : String) (quat : Quaternion)
    (hp : parseQuaternion line = .ok quat) :
    processLine fails st line =
      { currentQuat := quat,
        clients := (broadcastQuaternion quat fails st.clients).1,
        log := st.log ++ (broadcastQuaternion quat fails st.clients).2 } := by
  unfold processLine
  rw [hp]

theorem mem_broadcast_id (quat : Quaternion) (fails : ℕ → Bool)
    (cs : List Client) (c : Client)
    (hc : c ∈ (broadcastQuaternion quat fails cs).1) :
    c.id ∈ cs.map Client.id := by
  cases hm : marshalQuaternion quat with
  | error e =>
    rw [broadcastQuaternion_error quat fails cs e hm] at hc
    exact List.mem_map_of_mem Client.id hc
  | ok data =>
    rw [broadcastQuaternion_ok quat fails cs data hm, deliverAll_eq] at hc
    simp only [List.mem_map, List.mem_filter] at hc
    obtain ⟨c0, ⟨hc0, _⟩, rfl⟩ := hc
    have h0 : Client.id c0 ∈ cs.map Client.id := List.mem_map_of_mem Client.id hc0
    exact h0

theorem sameCore_processLine (fails : ℕ → Bool) (s t : ServerState)
    (line : String) (h : sameCore s t) :
    sameCore (processLine fails s line) (processLine fails t line) := by
  obtain ⟨h1, h2⟩ := h
  cases hp : parseQuaternion line with
  | error e =>
    rw [processLine_error fails s line e hp, processLine_error fails t line e hp]
    exact ⟨h1, h2⟩
  | ok quat =>
    rw [processLine_ok fails s line quat hp, processLine_ok fails t line quat hp]
    exact ⟨rfl, by rw [h2]⟩

theorem sameCore_processLines (fails : ℕ → Bool) (s t : ServerState)
    (lines : List String) (h : sameCore s t) :
    sameCore (processLines fails s lines) (processLines fails t lines) := by
  induction lines generalizing s t with
  | nil => exact h
  | cons l rest ih =>
    exact ih _ _ (sameCore_processLine fails s t l h)

/-- Claim C1 is false as stated: at process start the Shared Latest-Value
Store holds the Go zero value of the struct — `i=j=k=0` and `real=0`, not
`real=1` — so the first snapshot a subscriber registering before any
parse receives is the serialization of the all-zero record, not of the
identity record. -/
theorem C1_counterexample :
    initialState.currentQuat ≠
      { i := .fin 0, j := .fin 0, k := .fin 0, real := .fin 1 } ∧
    (register initialState 0).clients =
      [{ id := 0, inbox := [some [("i", 0), ("j", 0), ("k", 0), ("real", 0)]] }] ∧
    some [("i", (0 : ℚ)), ("j", 0), ("k", 0), ("real", 0)] ≠
      some [("i", (0 : ℚ)), ("j", 0), ("k", 0), ("real", 1)] := by
  refine ⟨by decide, ?_, by decide⟩
  decide

/-- Claim C1, amended: at process start, before any line has been
parsed, the Shared Latest-Value Store holds the Go zero-value record
`i = j = k = 0, real = 0`, and the first snapshot sent to any subscriber
that registers before the first successful parse is the serialization of
that all-zero record. -/
theorem C1_initial_snapshot (cid : ℕ) :
    initialState.currentQuat =
      { i := .fin 0, j := .fin 0, k := .fin 0, real := .fin 0 } ∧
    (register initialState cid).clients =
      [{ id := cid, inbox := [some [("i", 0), ("j", 0), ("k", 0), ("real", 0)]] }] := by
  exact ⟨rfl, rfl⟩

/-- Claim C2: a line that trims and comma-splits into exactly four
fields, each accepted by `strconv.ParseFloat`, parses successfully into
the record whose `i, j, k, real` fields are the four parsed values in
field order. -/
theorem C2_parse_valid (line : String) (a b c d : List Char)
    (va vb vc vd : GoFloat)
    (hsplit : splitComma (goTrimSpace line.data) = [a, b, c, d])
    (ha : goParseFloat a = .ok va) (hb : goParseFloat b = .ok vb)
    (hc : goParseFloat c = .ok vc) (hd : goParseFloat d = .ok vd) :
    parseQuaternion line = .ok { i := va, j := vb, k := vc, real := vd } := by
  unfold parseQuaternion
  rw [hsplit]
  simp only [parseParts]
  rw [ha, hb, hc, hd]

/-- Witness for C2 at the spec's own scenario line `0.1,0.2,0.3,0.9`,
which parses to the record `{i: 0.1, j: 0.2, k: 0.3, real: 0.9}`. -/
theorem C2_witness :
    splitComma (goTrimSpace ("0.1,0.2,0.3,0.9").data) =
      ["0.1".data, "0.2".data, "0.3".data, "0.9".data] ∧
    goParseFloat "0.1".data = .ok (.fin (mkRat 1 10)) ∧
    goParseFloat "0.2".data = .ok (.fin (mkRat 1 5)) ∧
    goParseFloat "0.3".data = .ok (.fin (mkRat 3 10)) ∧
    goParseFloat "0.9".data = .ok (.fin (mkRat 9 10)) ∧
    parseQuaternion "0.1,0.2,0.3,0.9" =
      .ok { i := .fin (mkRat 1 10), j := .fin (mkRat 1 5),
            k := .fin (mkRat 3 10), real := .fin (mkRat 9 10) } :=
  ⟨by decide, by decide, by decide, by decide, by decide,
    C2_parse_valid "0.1,0.2,0.3,0.9" "0.1".data "0.2".data "0.3".data "0.9".data
      (.fin (mkRat 1 10)) (.fin (mkRat 1 5)) (.fin (mkRat 3 10)) (.fin (mkRat 9 10))
      (by decide) (by decide) (by decide) (by decide) (by decide)⟩

/-- Claim C3: a line whose comma-split field count `N` is not 4 fails
with exactly the message `expected 4 values, got N`. -/
theorem C3_wrong_count (line : String)
    (h : (splitComma (goTrimSpace line.data)).length ≠ 4) :
    parseQuaternion line =
      .error ("expected 4 values, got " ++
        toString (splitComma (goTrimSpace line.data)).length) := by
  unfold parseQuaternion
  rcases hp : splitComma (goTrimSpace line.data) with _ | ⟨a, _ | ⟨b, _ | ⟨c, _ | ⟨d, _ | ⟨e, rest⟩⟩⟩⟩⟩ <;>
    rw [hp] at h <;> first
  | rfl
  | exact absurd rfl h

/-- Witness for C3 at the spec's own scenario line `0,0,0`, which fails
with `expected 4 values, got 3`. -/
theorem C3_witness :
    (splitComma (goTrimSpace ("0,0,0").data)).length ≠ 4 ∧
    parseQuaternion "0,0,0" = .error "expected 4 values, got 3" := by
  refine ⟨by decide, ?_⟩
  rw [C3_wrong_count "0,0,0" (by decide)]
  decide

/-- Claim C4 is false as stated: it quantifies over every field position
`k` whose text fails to parse, but `parseQuaternion` checks fields in
order and reports only the first failure.  On the line `abc,def,0,1`
field `j` (`def`) does not parse, yet the returned error names field `i`
and its text `abc`; it contains neither the text `def` nor even the
character `j`. -/
theorem C4_counterexample :
    goParseFloat "def".data = .error .invalidSyntax ∧
    parseQuaternion "abc,def,0,1" =
      .error "invalid i value: strconv.ParseFloat: parsing \"abc\": invalid syntax" ∧
    containsSub "def".data
      ("invalid i value: strconv.ParseFloat: parsing \"abc\": invalid syntax").data = false ∧
    containsSub "j".data
      ("invalid i value: strconv.ParseFloat: parsing \"abc\": invalid syntax").data = false := by
  refine ⟨by decide, ?_, by decide, by decide⟩
  decide

/-- Claim C4, amended: for a four-field line, if the first field (in the
order `i, j, k, real`) whose text is rejected by the float parser is at
role `r`, the parse fails with the error
`invalid r value: strconv.ParseFloat: parsing "text": ...`, which names
that role and embeds the offending text in quoted form (the last
conjunct: the quoted text always occurs inside the `ParseFloat`
message). -/
theorem C4_first_invalid_field (line : String) (a b c d : List Char)
    (hsplit : splitComma (goTrimSpace line.data) = [a, b, c, d]) :
    (∀ e, goParseFloat a = .error e →
      parseQuaternion line =
        .error ("invalid i value: " ++ String.mk (numErrorMsg a e))) ∧
    (∀ va e, goParseFloat a = .ok va → goParseFloat b = .error e →
      parseQuaternion line =
        .error ("invalid j value: " ++ String.mk (numErrorMsg b e))) ∧
    (∀ va vb e, goParseFloat a = .ok va → goParseFloat b = .ok vb →
      goParseFloat c = .error e →
      parseQuaternion line =
        .error ("invalid k value: " ++ String.mk (numErrorMsg c e))) ∧
    (∀ va vb vc e, goParseFloat a = .ok va → goParseFloat b = .ok vb →
      goParseFloat c = .ok vc → goParseFloat d = .error e →
      parseQuaternion line =
        .error ("invalid real value: " ++ String.mk (numErrorMsg d e))) ∧
    (∀ t e, containsSub (goQuote t) (numErrorMsg t e) = true) := by
  refine ⟨?_, ?_, ?_, ?_, ?_⟩
  · intro e he
    unfold parseQuaternion
    rw [hsplit]
    simp only [parseParts]
    rw [he]
  · intro va e ha he
    unfold parseQuaternion
    rw [hsplit]
    simp only [parseParts]
    rw [ha, he]
  · intro va vb e ha hb he
    unfold parseQuaternion
    rw [hsplit]
    simp only [parseParts]
    rw [ha, hb, he]
  · intro va vb vc e ha hb hc he
    unfold parseQuaternion
    rw [hsplit]
    simp only [parseParts]
    rw [ha, hb, hc, he]
  · intro t e
    unfold numErrorMsg
    cases e
    · simpa using containsSub_append_middle ("strconv.ParseFloat: parsing ").data
        (goQuote t) ((": ").data ++ ("invalid syntax").data)
    · simpa using containsSub_append_middle ("strconv.ParseFloat: parsing ").data
        (goQuote t) ((": ").data ++ ("value out of range").data)

/-- Witness for the amended C4 at the spec's own scenario line
`abc,0,0,1`: the error names role `i` and carries the quoted text
`"abc"`. -/
theorem C4_witness :
    splitComma (goTrimSpace ("abc,0,0,1").data) =
      ["abc".data, "0".data, "0".data, "1".data] ∧
    goParseFloat "abc".data = .error .invalidSyntax ∧
    parseQuaternion "abc,0,0,1" =
      .error "invalid i value: strconv.ParseFloat: parsing \"abc\": invalid syntax" ∧
    containsSub (goQuote "abc".data) (numErrorMsg "abc".data .invalidSyntax) = true := by
  refine ⟨by decide, by decide, ?_, by decide⟩
  rw [(C4_first_invalid_field "abc,0,0,1" "abc".data "0".data "0".data "1".data
      (by decide)).1 .invalidSyntax (by decide)]
  decide

/-- Claim C5: during a `publish` whose serialization succeeded, a
registered subscriber whose delivery attempt fails is absent from the
subscriber set as soon as that `broadcastQuaternion` call returns,
receives nothing from any later publish (it can never reappear in the
set), and delivery failure is the only evicting event — every subscriber
whose write succeeds is still present, with the record delivered. -/
theorem C5_eviction (quat : Quaternion) (data : QuatJson) (fails : ℕ → Bool)
    (cs : List Client) (cid : ℕ)
    (hm : marshalQuaternion quat = .ok data) (hf : fails cid = true) :
    (∀ c ∈ (broadcastQuaternion quat fails cs).1, c.id ≠ cid) ∧
    (∀ pubs : List (Quaternion × (ℕ → Bool)),
      ∀ c ∈ pubs.foldl (fun l p => (broadcastQuaternion p.1 p.2 l).1)
          ((broadcastQuaternion quat fails cs).1), c.id ≠ cid) ∧
    (∀ c ∈ cs, fails c.id = false →
      { c with inbox := c.inbox ++ [some data] } ∈
        (broadcastQuaternion quat fails cs).1) := by
  have h1 : ∀ c ∈ (broadcastQuaternion quat fails cs).1, c.id ≠ cid := by
    rw [broadcastQuaternion_ok quat fails cs data hm, deliverAll_eq]
    intro c hc
    simp only [List.mem_map, List.mem_filter, Bool.not_eq_eq_eq_not,
      Bool.not_true] at hc
    obtain ⟨c0, ⟨_, hna⟩, rfl⟩ := hc
    intro hcontra
    rw [show Client.id { c0 with inbox := c0.inbox ++ [some data] } = c0.id from rfl]
      at hcontra
    rw [hcontra, hf] at hna
    exact Bool.true_eq_false.mp hna
  have hstep : ∀ (pubs : List (Quaternion × (ℕ → Bool))) (l : List Client),
      (∀ c ∈ l, c.id ≠ cid) →
      ∀ c ∈ pubs.foldl (fun acc p => (broadcastQuaternion p.1 p.2 acc).1) l,
        c.id ≠ cid := by
    intro pubs
    induction pubs with
    | nil => intro l hl; exact hl
    | cons p rest ih =>
      intro l hl
      refine ih _ ?_
      intro c' hc'
      obtain ⟨c0, hc0, heq⟩ := List.mem_map.mp (mem_broadcast_id p.1 p.2 l c' hc')
      rw [← heq]
      exact hl c0 hc0
  refine ⟨h1, fun pubs => hstep pubs _ h1, ?_⟩
  rw [broadcastQuaternion_ok quat fails cs data hm, deliverAll_eq]
  intro c hcm hcf
  simp only [List.mem_map, List.mem_filter]
  exact ⟨c, ⟨hcm, by rw [hcf]; rfl⟩, rfl⟩

/-- Witness for C5: with two subscribers `5` and `7` and a write oracle
that fails exactly for `5`, publishing the zero record evicts `5`
permanently while `7` keeps receiving. -/
theorem C5_witness :
    marshalQuaternion zeroQuat = .ok [("i", 0), ("j", 0), ("k", 0), ("real", 0)] ∧
    (fun n => n == 5) 5 = true ∧
    ((∀ c ∈ (broadcastQuaternion zeroQuat (fun n => n == 5)
        [⟨5, []⟩, ⟨7, []⟩]).1, c.id ≠ 5) ∧
      (∀ pubs : List (Quaternion × (ℕ → Bool)),
        ∀ c ∈ pubs.foldl (fun l p => (broadcastQuaternion p.1 p.2 l).1)
            ((broadcastQuaternion zeroQuat (fun n => n == 5)
              [⟨5, []⟩, ⟨7, []⟩]).1), c.id ≠ 5) ∧
      (∀ c ∈ [(⟨5, []⟩ : Client), ⟨7, []⟩], (fun n => n == 5) c.id = false →
        { c with inbox := c.inbox ++
            [some (([("i", 0), ("j", 0), ("k", 0), ("real", 0)] : QuatJson))] } ∈
          (broadcastQuaternion zeroQuat (fun n => n == 5) [⟨5, []⟩, ⟨7, []⟩]).1)) :=
  ⟨by decide, rfl,
    C5_eviction zeroQuat [("i", 0), ("j", 0), ("k", 0), ("real", 0)]
      (fun n => n == 5) [⟨5, []⟩, ⟨7, []⟩] 5 (by decide) rfl⟩

/-- Claim C6: a `publish` whose serialization succeeded and in which no
delivery attempt fails hands every registered subscriber exactly one new
message — the one serialization `data` of the record, computed once and
identical for all — leaves the subscriber set otherwise unchanged, and
that message exposes exactly the four named numeric fields
`i, j, k, real` of the record. -/
theorem C6_fanout (quat : Quaternion) (data : QuatJson) (fails : ℕ → Bool)
    (cs : List Client)
    (hm : marshalQuaternion quat = .ok data)
    (hnf : ∀ c ∈ cs, fails c.id = false) :
    (broadcastQuaternion quat fails cs).1 =
      cs.map (fun c => { c with inbox := c.inbox ++ [some data] }) ∧
    (broadcastQuaternion quat fails cs).2 = [] ∧
    (∀ qi qj qk qr : ℚ,
      quat = { i := .fin qi, j := .fin qj, k := .fin qk, real := .fin qr } →
      data = [("i", qi), ("j", qj), ("k", qk), ("real", qr)]) := by
  have hfilter : cs.filter (fun c => !fails c.id) = cs := by
    rw [List.filter_eq_self]
    intro c hc
    rw [hnf c hc]
    rfl
  have hfilter2 : cs.filter (fun c => fails c.id) = [] := by
    rw [List.filter_eq_nil_iff]
    intro c hc
    rw [hnf c hc]
    exact Bool.false_ne_true
  refine ⟨?_, ?_, ?_⟩
  · rw [broadcastQuaternion_ok quat fails cs data hm, deliverAll_eq, hfilter]
  · rw [broadcastQuaternion_ok quat fails cs data hm, deliverAll_eq, hfilter2]
    rfl
  · intro qi qj qk qr hq
    rw [hq] at hm
    simp only [marshalQuaternion] at hm
    exact (Except.ok.inj hm).symm

/-- Witness for C6: two subscribers, no failing write, publishing the
zero record appends the same serialized object to both inboxes. -/
theorem C6_witness :
    marshalQuaternion zeroQuat = .ok [("i", 0), ("j", 0), ("k", 0), ("real", 0)] ∧
    (∀ c ∈ [(⟨1, []⟩ : Client), ⟨2, []⟩], (fun _ => false) c.id = false) ∧
    ((broadcastQuaternion zeroQuat (fun _ => false) [⟨1, []⟩, ⟨2, []⟩]).1 =
      [(⟨1, []⟩ : Client), ⟨2, []⟩].map
        (fun c => { c with inbox := c.inbox ++
          [some (([("i", 0), ("j", 0), ("k", 0), ("real", 0)] : QuatJson))] }) ∧
      (broadcastQuaternion zeroQuat (fun _ => false) [⟨1, []⟩, ⟨2, []⟩]).2 = [] ∧
      (∀ qi qj qk qr : ℚ,
        zeroQuat = { i := .fin qi, j := .fin qj, k := .fin qk, real := .fin qr } →
        [("i", (0 : ℚ)), ("j", 0), ("k", 0), ("real", 0)] =
          [("i", qi), ("j", qj), ("k", qk), ("real", qr)])) :=
  ⟨by decide, by decide,
    C6_fanout zeroQuat [("i", 0), ("j", 0), ("k", 0), ("real", 0)]
      (fun _ => false) [⟨1, []⟩, ⟨2, []⟩] (by decide) (by decide)⟩

/-- Claim C7 is false as stated: a subscriber that registers while the
store holds a non-finite record (reachable, e.g. after the line
`NaN,0,0,1` was parsed and stored) gets an *empty* first message,
because `handleWebSocket` ignores the `json.Marshal` error and writes
the nil byte slice.  The first message is therefore not always a
snapshot of the store, and it can be empty. -/
theorem C7_counterexample :
    parseQuaternion "NaN,0,0,1" =
      .ok { i := .nan, j := .fin 0, k := .fin 0, real := .fin 1 } ∧
    (register (processLine (fun _ => false) initialState "NaN,0,0,1") 0).clients =
      [{ id := 0, inbox := [none] }] ∧
    marshalQuaternion
        (processLine (fun _ => false) initialState "NaN,0,0,1").currentQuat =
      .error "json: unsupported value: NaN" := by
  refine ⟨?_, ?_, ?_⟩ <;> decide

/-- Claim C7, amended: every subscriber that completes registration is
appended to the subscriber set and immediately sent a first message; when
the store snapshot read at registration has four finite fields the first
message is exactly that snapshot's serialization (never empty or
missing), while a snapshot with a non-finite field yields an empty first
message because the marshal error is discarded. -/
theorem C7_register_snapshot (st : ServerState) (cid : ℕ) (qi qj qk qr : ℚ)
    (hfin : st.currentQuat =
      { i := .fin qi, j := .fin qj, k := .fin qk, real := .fin qr }) :
    marshalQuaternion st.currentQuat =
      .ok [("i", qi), ("j", qj), ("k", qk), ("real", qr)] ∧
    (register st cid).clients = st.clients ++
      [{ id := cid, inbox := [some [("i", qi), ("j", qj), ("k", qk), ("real", qr)]] }] ∧
    (register st cid).currentQuat = st.currentQuat := by
  have hm : marshalQuaternion st.currentQuat =
      .ok [("i", qi), ("j", qj), ("k", qk), ("real", qr)] := by
    rw [hfin]
    rfl
  refine ⟨hm, ?_, rfl⟩
  show st.clients ++ [{ id := cid, inbox := [(marshalQuaternion st.currentQuat).toOption] }] = _
  rw [hm]
  rfl

/-- Witness for the amended C7: registering client `3` while the store
holds the identity-like record `(0,0,0,1)` delivers exactly that record's
serialization as the first message. -/
theorem C7_witness :
    ((⟨⟨.fin 0, .fin 0, .fin 0, .fin 1⟩, [], []⟩ : ServerState)).currentQuat =
      { i := .fin 0, j := .fin 0, k := .fin 0, real := .fin 1 } ∧
    (marshalQuaternion ((⟨⟨.fin 0, .fin 0, .fin 0, .fin 1⟩, [], []⟩ : ServerState)).currentQuat =
      .ok [("i", 0), ("j", 0), ("k", 0), ("real", 1)] ∧
    (register (⟨⟨.fin 0, .fin 0, .fin 0, .fin 1⟩, [], []⟩ : ServerState) 3).clients =
      ([] : List Client) ++
        [{ id := 3, inbox := [some [("i", 0), ("j", 0), ("k", 0), ("real", 1)]] }] ∧
    (register (⟨⟨.fin 0, .fin 0, .fin 0, .fin 1⟩, [], []⟩ : ServerState) 3).currentQuat =
      ((⟨⟨.fin 0, .fin 0, .fin 0, .fin 1⟩, [], []⟩ : ServerState)).currentQuat) :=
  ⟨rfl, C7_register_snapshot (⟨⟨.fin 0, .fin 0, .fin 0, .fin 1⟩, [], []⟩ : ServerState)
    3 0 0 0 1 rfl⟩

/-- Claim C8: for each line read in the Reading state, a successful
parse stores the record in the latest-value store and then publishes
that same record to the current subscriber set, while a failed parse is
reported to the log and skipped — the store and the subscriber set are
untouched and no publish occurs (the loop keeps reading either way). -/
theorem C8_ingest_step (fails : ℕ → Bool) (st : ServerState) (line : String) :
    (∀ e, parseQuaternion line = .error e →
      (processLine fails st line).currentQuat = st.currentQuat ∧
      (processLine fails st line).clients = st.clients ∧
      (processLine fails st line).log = st.log ++ [.parseError e line]) ∧
    (∀ quat, parseQuaternion line = .ok quat →
      (processLine fails st line).currentQuat = quat ∧
      (processLine fails st line).clients =
        (broadcastQuaternion quat fails st.clients).1 ∧
      (processLine fails st line).log =
        st.log ++ (broadcastQuaternion quat fails st.clients).2) := by
  constructor
  · intro e he
    rw [processLine_error fails st line e he]
    exact ⟨rfl, rfl, rfl⟩
  · intro quat hq
    rw [processLine_ok fails st line quat hq]
    exact ⟨rfl, rfl, rfl⟩

/-- Witness for C8 at the spec's scenario: the malformed line `0,0,0` is
logged and leaves the state alone, and the valid line `1,2,3,4` is
stored and broadcast. -/
theorem C8_witness :
    (parseQuaternion "0,0,0" = .error "expected 4 values, got 3" ∧
      (processLine (fun _ => false) initialState "0,0,0").currentQuat =
        initialState.currentQuat ∧
      (processLine (fun _ => false) initialState "0,0,0").clients =
        initialState.clients ∧
      (processLine (fun _ => false) initialState "0,0,0").log =
        initialState.log ++ [.parseError "expected 4 values, got 3" "0,0,0"]) ∧
    (parseQuaternion "1,2,3,4" =
        .ok { i := .fin 1, j := .fin 2, k := .fin 3, real := .fin 4 } ∧
      (processLine (fun _ => false) initialState "1,2,3,4").currentQuat =
        { i := .fin 1, j := .fin 2, k := .fin 3, real := .fin 4 } ∧
      (processLine (fun _ => false) initialState "1,2,3,4").clients =
        (broadcastQuaternion { i := .fin 1, j := .fin 2, k := .fin 3, real := .fin 4 }
          (fun _ => false) initialState.clients).1 ∧
      (processLine (fun _ => false) initialState "1,2,3,4").log =
        initialState.log ++
          (broadcastQuaternion { i := .fin 1, j := .fin 2, k := .fin 3, real := .fin 4 }
            (fun _ => false) initialState.clients).2) :=
  ⟨⟨by decide, (C8_ingest_step (fun _ => false) initialState "0,0,0").1
      "expected 4 values, got 3" (by decide)⟩,
    ⟨by decide, (C8_ingest_step (fun _ => false) initialState "1,2,3,4").2
      { i := .fin 1, j := .fin 2, k := .fin 3, real := .fin 4 } (by decide)⟩⟩

/-- Claim C9: when a line sequence ends the loop goes back to opening
the source; every failed open leaves the store and the subscriber set
untouched and is retried (the loop state is defined for every iteration
count — the loop never terminates), and the next successful open resumes
parsing and publishing the new lines with the very same per-line
pipeline, without a process restart. -/
theorem C9_reconnect (fails : ℕ → Bool) (st0 : ServerState) (att : ℕ → Attempt)
    (n m : ℕ) (ls : List String)
    (hnm : n ≤ m)
    (hfail : ∀ k, n ≤ k → k < m → att k = .openFail)
    (hopen : att m = .openOk ls) :
    sameCore (loopState fails st0 att m) (loopState fails st0 att n) ∧
    sameCore (loopState fails st0 att (m + 1))
      (processLines fails (loopState fails st0 att m) ls) := by
  have h1 : ∀ m', n ≤ m' → (∀ k, n ≤ k → k < m' → att k = .openFail) →
      sameCore (loopState fails st0 att m') (loopState fails st0 att n) := by
    intro m'
    induction m' with
    | zero =>
      intro h _
      have h0 : n = 0 := Nat.le_zero.mp h
      rw [h0]
      exact ⟨rfl, rfl⟩
    | succ mm ih =>
      intro h hf
      rcases Nat.lt_or_ge n (mm + 1) with hlt | hge
      · have hn_le : n ≤ mm := Nat.lt_succ_iff.mp hlt
        have hmmfail := hf mm hn_le (Nat.lt_succ_self mm)
        have hstep : sameCore (loopState fails st0 att (mm + 1))
            (loopState fails st0 att mm) := by
          show sameCore (applyAttempt fails (loopState fails st0 att mm) (att mm)) _
          rw [hmmfail]
          exact ⟨rfl, rfl⟩
        have hrest := ih hn_le (fun k hk1 hk2 => hf k hk1 (Nat.lt_succ_of_lt hk2))
        exact ⟨hstep.1.trans hrest.1, hstep.2.trans hrest.2⟩
      · have heq : n = mm + 1 := Nat.le_antisymm h hge
        rw [heq]
        exact ⟨rfl, rfl⟩
  have h2 : sameCore (loopState fails st0 att (m + 1))
      (processLines fails (loopState fails st0 att m) ls) := by
    show sameCore (applyAttempt fails (loopState fails st0 att m) (att m)) _
    rw [hopen]
    have hcore := sameCore_processLines fails
      { loopState fails st0 att m with
        log := (loopState fails st0 att m).log ++ [.opened] }
      (loopState fails st0 att m) ls ⟨rfl, rfl⟩
    exact ⟨hcore.1, hcore.2⟩
  exact ⟨h1 m hnm hfail, h2⟩

/-- Witness for C9: the source delivers one line, drops, two opens fail,
the fourth open succeeds and its line is processed on top of the state
reached before the failures. -/
theorem C9_witness :
    (1 : ℕ) ≤ 3 ∧
    (∀ k, 1 ≤ k → k < 3 →
      (fun k => if k = 0 then Attempt.openOk ["0,0,0,1"]
        else if k = 3 then Attempt.openOk ["1,0,0,0"]
        else Attempt.openFail) k = .openFail) ∧
    (fun k => if k = 0 then Attempt.openOk ["0,0,0,1"]
      else if k = 3 then Attempt.openOk ["1,0,0,0"]
      else Attempt.openFail) 3 = .openOk ["1,0,0,0"] ∧
    (sameCore
      (loopState (fun _ => false) initialState
        (fun k => if k = 0 then Attempt.openOk ["0,0,0,1"]
          else if k = 3 then Attempt.openOk ["1,0,0,0"]
          else Attempt.openFail) 3)
      (loopState (fun _ => false) initialState
        (fun k => if k = 0 then Attempt.openOk ["0,0,0,1"]
          else if k = 3 then Attempt.openOk ["1,0,0,0"]
          else Attempt.openFail) 1) ∧
    sameCore
      (loopState (fun _ => false) initialState
        (fun k => if k = 0 then Attempt.openOk ["0,0,0,1"]
          else if k = 3 then Attempt.openOk ["1,0,0,0"]
          else Attempt.openFail) (3 + 1))
      (processLines (fun _ => false)
        (loopState (fun _ => false) initialState
          (fun k => if k = 0 then Attempt.openOk ["0,0,0,1"]
            else if k = 3 then Attempt.openOk ["1,0,0,0"]
            else Attempt.openFail) 3) ["1,0,0,0"])) :=
  ⟨by decide,
    by
      intro k h1 h2
      interval_cases k <;> rfl,
    rfl,
    C9_reconnect (fun _ => false) initialState
      (fun k => if k = 0 then Attempt.openOk ["0,0,0,1"]
        else if k = 3 then Attempt.openOk ["1,0,0,0"]
        else Attempt.openFail) 1 3 ["1,0,0,0"] (by decide)
      (by
        intro k h1 h2
        interval_cases k <;> rfl)
      rfl⟩

/-- Claim C10: the lines `NaN,0,0,1` and `Inf,0,0,1` are accepted by the
parser (the field parser accepts the tokens `NaN` and `Inf`), the JSON
serialization of the resulting record fails, and on such a line the
ingest step stores the record in the latest-value store while
`broadcastQuaternion` returns without delivering anything and with the
subscriber set unchanged: a successfully parsed record is stored but
never broadcast. -/
theorem C10_stored_not_broadcast (st : ServerState) (fails : ℕ → Bool) :
    parseQuaternion "NaN,0,0,1" =
      .ok { i := .nan, j := .fin 0, k := .fin 0, real := .fin 1 } ∧
    parseQuaternion "Inf,0,0,1" =
      .ok { i := .inf false, j := .fin 0, k := .fin 0, real := .fin 1 } ∧
    marshalQuaternion { i := .nan, j := .fin 0, k := .fin 0, real := .fin 1 } =
      .error "json: unsupported value: NaN" ∧
    broadcastQuaternion { i := .nan, j := .fin 0, k := .fin 0, real := .fin 1 }
        fails st.clients =
      (st.clients, [.marshalError "json: unsupported value: NaN"]) ∧
    processLine fails st "NaN,0,0,1" =
      { currentQuat := { i := .nan, j := .fin 0, k := .fin 0, real := .fin 1 },
        clients := st.clients,
        log := st.log ++ [.marshalError "json: unsupported value: NaN"] } := by
  have hp : parseQuaternion "NaN,0,0,1" =
      .ok { i := .nan, j := .fin 0, k := .fin 0, real := .fin 1 } := by decide
  have hm : marshalQuaternion { i := .nan, j := .fin 0, k := .fin 0, real := .fin 1 } =
      .error "json: unsupported value: NaN" := by decide
  have hb := broadcastQuaternion_error
    { i := .nan, j := .fin 0, k := .fin 0, real := .fin 1 } fails st.clients
    "json: unsupported value: NaN" hm
  refine ⟨hp, by decide, hm, hb, ?_⟩
  rw [processLine_ok fails st "NaN,0,0,1" _ hp, hb]

end Quatplot
